import Mathlib

/-!
Verification development for the beyond-pad note client.

The embedding mirrors `src/components/Editor.tsx` (encryption pipeline,
save/load orchestration) and `src/hooks/useSafeSmartWallet.ts` (relay retry
loop).  External collaborators (the wallet signer, SHA-256, the AES block
permutation, IPFS, the Gelato relay, JSON parsing) are passed in as explicit
function parameters / structure fields, exactly at the call boundaries where
the source invokes them; everything the repository itself computes (message
construction, CBC chaining and padding as performed by the crypto-js
passphrase mode the source calls, control flow, validation, merging,
retries) is embedded concretely.
-/

namespace BeyondPad

/-! ### Bytes and UTF-8

crypto-js converts JavaScript strings to byte sequences (UTF-8) before
encrypting, and converts decrypted bytes back with `toString(CryptoJS.enc.Utf8)`,
which throws when the bytes are not well-formed UTF-8.  We model byte
sequences as `List Nat` and model the "stringify succeeds" condition with a
concrete UTF-8 validator. -/

def isCont (b : Nat) : Bool := 0x80 ≤ b && b < 0xC0

/-- Standard UTF-8 well-formedness check (RFC 3629 table). -/
def isValidUtf8 : List Nat → Bool
  | [] => true
  | b :: rest =>
    if b < 0x80 then isValidUtf8 rest
    else match rest with
      | [] => false
      | c :: r =>
        if 0xC2 ≤ b && b ≤ 0xDF then isCont c && isValidUtf8 r
        else match r with
          | [] => false
          | d :: r2 =>
            if b == 0xE0 then (0xA0 ≤ c && c ≤ 0xBF) && isCont d && isValidUtf8 r2
            else if (0xE1 ≤ b && b ≤ 0xEC) || b == 0xEE || b == 0xEF then
              isCont c && isCont d && isValidUtf8 r2
            else if b == 0xED then (0x80 ≤ c && c ≤ 0x9F) && isCont d && isValidUtf8 r2
            else match r2 with
              | [] => false
              | e :: r3 =>
                if b == 0xF0 then (0x90 ≤ c && c ≤ 0xBF) && isCont d && isCont e && isValidUtf8 r3
                else if 0xF1 ≤ b && b ≤ 0xF3 then isCont c && isCont d && isCont e && isValidUtf8 r3
                else if b == 0xF4 then (0x80 ≤ c && c ≤ 0x8F) && isCont d && isCont e && isValidUtf8 r3
                else false

/-- UTF-8 encoding of one character. -/
def utf8EncodeChar (c : Char) : List Nat :=
  let n := c.toNat
  if n < 0x80 then [n]
  else if n < 0x800 then [0xC0 ||| (n >>> 6), 0x80 ||| (n &&& 0x3F)]
  else if n < 0x10000 then
    [0xE0 ||| (n >>> 12), 0x80 ||| ((n >>> 6) &&& 0x3F), 0x80 ||| (n &&& 0x3F)]
  else
    [0xF0 ||| (n >>> 18), 0x80 ||| ((n >>> 12) &&& 0x3F),
     0x80 ||| ((n >>> 6) &&& 0x3F), 0x80 ||| (n &&& 0x3F)]

/-- UTF-8 encoding of a string, as crypto-js `Utf8.parse` produces. -/
def utf8Encode (s : String) : List Nat := (s.data.map utf8EncodeChar).flatten

/-! ### String helpers used by the source -/

/-- ASCII lowercasing of one character (model of JS `toLowerCase` on the
ASCII addresses and hex strings the source lowercases). -/
def toLowerChar (c : Char) : Char :=
  if 'A' ≤ c ∧ c ≤ 'Z' then Char.ofNat (c.toNat + 32) else c

def toLowerStr (s : String) : String := String.mk (s.data.map toLowerChar)

/-- First line of a character stream: `note.split("\n")[0]`. -/
def firstLineChars : List Char → List Char
  | [] => []
  | c :: cs => if c = '\n' then [] else c :: firstLineChars cs

def firstLine (s : String) : String := String.mk (firstLineChars s.data)

/-- `note.split("\n")[0].substring(0, 50) || "Untitled Note"` (Editor.tsx). -/
def titleOf (s : String) : String :=
  let t := String.mk ((firstLineChars s.data).take 50)
  if t = "" then "Untitled Note" else t

/-- JS `String.prototype.trim` (over the common whitespace characters). -/
def isJsWhitespace (c : Char) : Bool :=
  c = ' ' || c = '\t' || c = '\n' || c = '\r'

def trimStr (s : String) : String :=
  String.mk (((s.data.dropWhile isJsWhitespace).reverse.dropWhile isJsWhitespace).reverse)

def startsList : List Char → List Char → Bool
  | [], _ => true
  | _ :: _, [] => false
  | a :: ps, b :: ss => a == b && startsList ps ss

def hasSubList (pat : List Char) : List Char → Bool
  | [] => pat.isEmpty
  | l@(_ :: rest) => startsList pat l || hasSubList pat rest

/-- JS `String.prototype.includes`. -/
def containsSub (s pat : String) : Bool := hasSubList pat.data s.data

def isHexDigit (c : Char) : Bool :=
  ('0' ≤ c && c ≤ '9') || ('a' ≤ c && c ≤ 'f') || ('A' ≤ c && c ≤ 'F')

/-- Model of `ethers.getAddress` success (Editor.tsx `isValidAddress`): a
0x-prefixed 20-byte hex address.  (The EIP-55 checksum test on mixed-case
inputs is abstracted away; no claim depends on it.) -/
def isValidAddress (s : String) : Bool :=
  match s.data with
  | '0' :: 'x' :: rest => rest.length == 40 && rest.all isHexDigit
  | _ => false

/-- `ethers.ZeroAddress`. -/
def zeroAddress : String := "0x0000000000000000000000000000000000000000"

/-- JSON string escaping for `JSON.stringify` of the serialized note. -/
def jsonEscapeChar (c : Char) : String :=
  if c = '"' then "\\\""
  else if c = '\\' then "\\\\"
  else if c = '\n' then "\\n"
  else if c = '\r' then "\\r"
  else if c = '\t' then "\\t"
  else if c.toNat < 32 then "\\u00" ++ String.mk [hexDigitChar (c.toNat / 16), hexDigitChar (c.toNat % 16)]
  else String.mk [c]
where
  hexDigitChar (n : Nat) : Char := if n < 10 then Char.ofNat (48 + n) else Char.ofNat (87 + n)

def jsonString (s : String) : String :=
  "\"" ++ String.join (s.data.map jsonEscapeChar) ++ "\""

/-- `JSON.stringify({content, timestamp, version: "1.0"})` (Editor.tsx step 1). -/
def serializeNote (content timestampIso : String) : String :=
  "\x7b\"content\":" ++ jsonString content ++
  ",\"timestamp\":" ++ jsonString timestampIso ++ ",\"version\":\"1.0\"\x7d"

/-! ### The symmetric cipher (crypto-js `CryptoJS.AES` passphrase mode)

`Editor.tsx` calls `CryptoJS.AES.encrypt(content, key)` /
`CryptoJS.AES.decrypt(ct, key)` with a string passphrase.  crypto-js then
runs: random 8-byte salt → EvpKDF(passphrase, salt) → (aes key, iv) →
AES-256-CBC with PKCS7 padding → OpenSSL-format output carrying the salt.
Decryption re-derives (key, iv) from the passphrase and the transported
salt, runs CBC decryption, strips PKCS7 padding **without validating it**
(crypto-js `Pkcs7.unpad` subtracts the last byte from `sigBytes`
unchecked), and `toString(Utf8)` fails only when the resulting bytes are
not well-formed UTF-8.  The AES block permutation and the key-derivation
hash are external primitives, so they are fields of `BlockCipher`; the
CBC chaining, padding, unpadding and UTF-8 gate — the parts that determine
the round-trip and wrong-key behavior — are embedded concretely. -/

/-- XOR of two byte sequences (truncating to the shorter, as crypto-js
word-array XOR over equal-size blocks). -/
def xorB (a b : List Nat) : List Nat := List.zipWith (· ^^^ ·) a b

/-- PKCS7 padding to 16-byte blocks (crypto-js `Pkcs7.pad`). -/
def padPkcs7 (l : List Nat) : List Nat :=
  let n := 16 - l.length % 16
  l ++ List.replicate n n

/-- crypto-js `Pkcs7.unpad`: read the last byte and drop that many bytes,
without any validation (`data.sigBytes -= data.words[...] & 0xff`). -/
def unpadPkcs7 (l : List Nat) : List Nat :=
  l.take (l.length - l.getLastD 0 % 256)

/-- Split a byte sequence into 16-byte blocks (fuel-based so that it
reduces definitionally; the fuel `l.length` always suffices). -/
def toBlocksAux : Nat → List Nat → List (List Nat)
  | 0, _ => []
  | _ + 1, [] => []
  | fuel + 1, x :: xs => (x :: xs).take 16 :: toBlocksAux fuel ((x :: xs).drop 16)

def toBlocks (l : List Nat) : List (List Nat) := toBlocksAux l.length l

/-- An external block-cipher primitive together with its key derivation:
a keyed permutation on 16-byte blocks (AES-256 in the source) and the
EvpKDF passphrase-to-(key, iv) derivation. -/
structure BlockCipher where
  enc : List Nat → List Nat → List Nat
  dec : List Nat → List Nat → List Nat
  kdf : List Nat → List Nat → List Nat × List Nat
  enc_len : ∀ k b, b.length = 16 → (enc k b).length = 16
  dec_enc : ∀ k b, b.length = 16 → dec k (enc k b) = b
  kdf_iv_len : ∀ p s, (kdf p s).2.length = 16

/-- CBC-mode encryption (crypto-js `CBC.Encryptor`). -/
def cbcEnc (bc : BlockCipher) (k : List Nat) (iv : List Nat) :
    List (List Nat) → List (List Nat)
  | [] => []
  | b :: bs =>
    let c := bc.enc k (xorB iv b)
    c :: cbcEnc bc k c bs

/-- CBC-mode decryption (crypto-js `CBC.Decryptor`). -/
def cbcDec (bc : BlockCipher) (k : List Nat) (iv : List Nat) :
    List (List Nat) → List (List Nat)
  | [] => []
  | c :: cs => xorB iv (bc.dec k c) :: cbcDec bc k c cs

/-- The OpenSSL-format ciphertext the source passes around as a base64
string: the embedded salt plus the CBC block stream. -/
structure Ciphertext where
  salt : List Nat
  blocks : List (List Nat)
deriving DecidableEq

/-- `encryptContent` (Editor.tsx line 161): `CryptoJS.AES.encrypt(content, key)`
with the salt crypto-js draws made explicit. -/
def encryptContent (bc : BlockCipher) (content key salt : List Nat) : Ciphertext :=
  let p := bc.kdf key salt
  { salt := salt, blocks := cbcEnc bc p.1 p.2 (toBlocks (padPkcs7 content)) }

/-- `decryptContent` (Editor.tsx line 171):
`CryptoJS.AES.decrypt(ct, key).toString(CryptoJS.enc.Utf8)`.
Returns `none` exactly when the UTF-8 stringify throws; the padding is
stripped unchecked, so no other integrity check exists. -/
def decryptContent (bc : BlockCipher) (ct : Ciphertext) (key : List Nat) :
    Option (List Nat) :=
  let p := bc.kdf key ct.salt
  let bytes := unpadPkcs7 ((cbcDec bc p.1 p.2 ct.blocks).flatten)
  if isValidUtf8 bytes then some bytes else none

/-! #### Cipher round-trip lemmas -/

theorem xorB_length (a b : List Nat) : (xorB a b).length = min a.length b.length := by
  simp [xorB]

theorem xorB_xorB (a : List Nat) : ∀ b : List Nat, b.length ≤ a.length →
    xorB a (xorB a b) = b := by
  induction a with
  | nil =>
    intro b hb
    simp only [List.length_nil, Nat.le_zero, List.length_eq_zero] at hb
    subst hb; rfl
  | cons x xs ih =>
    intro b hb
    cases b with
    | nil => rfl
    | cons y ys =>
      simp only [xorB, List.zipWith_cons_cons, List.cons.injEq]
      exact ⟨by rw [← Nat.xor_assoc, Nat.xor_self, Nat.zero_xor],
             ih ys (by simpa using hb)⟩

theorem padPkcs7_length (l : List Nat) :
    (padPkcs7 l).length = l.length + (16 - l.length % 16) := by
  simp [padPkcs7]

theorem padPkcs7_length_mod (l : List Nat) : (padPkcs7 l).length % 16 = 0 := by
  rw [padPkcs7_length]
  have h := Nat.mod_lt l.length (show 0 < 16 by norm_num)
  have h2 := Nat.div_add_mod l.length 16
  omega

theorem padPkcs7_ne_nil (l : List Nat) : padPkcs7 l ≠ [] := by
  intro h
  have := congrArg List.length h
  rw [padPkcs7_length] at this
  have hm := Nat.mod_lt l.length (show 0 < 16 by norm_num)
  simp at this
  omega

theorem getLastD_concat (a d : Nat) (xs : List Nat) : (xs ++ [a]).getLastD d = a := by
  induction xs generalizing d with
  | nil => rfl
  | cons x xs ih => rw [List.cons_append, List.getLastD_cons]; exact ih x

theorem getLastD_replicate_append (l : List Nat) (n : Nat) (hn : 0 < n) :
    (l ++ List.replicate n n).getLastD 0 = n := by
  obtain ⟨m, rfl⟩ : ∃ m, n = m + 1 := ⟨n - 1, by omega⟩
  rw [List.replicate_succ', ← List.append_assoc, getLastD_concat]

theorem unpadPkcs7_padPkcs7 (l : List Nat) : unpadPkcs7 (padPkcs7 l) = l := by
  have hm := Nat.mod_lt l.length (show 0 < 16 by norm_num)
  have hlast : (padPkcs7 l).getLastD 0 = 16 - l.length % 16 :=
    getLastD_replicate_append l _ (by omega)
  rw [unpadPkcs7, hlast, padPkcs7_length]
  have h1 : (16 - l.length % 16) % 256 = 16 - l.length % 16 := Nat.mod_eq_of_lt (by omega)
  rw [h1]
  have h2 : l.length + (16 - l.length % 16) - (16 - l.length % 16) = l.length := by omega
  rw [h2]
  simp only [padPkcs7]
  exact List.take_left' rfl

theorem toBlocksAux_flatten :
    ∀ (fuel : Nat) (l : List Nat), l.length ≤ fuel →
      (toBlocksAux fuel l).flatten = l := by
  intro fuel
  induction fuel with
  | zero =>
    intro l h
    have : l = [] := by
      cases l with
      | nil => rfl
      | cons x xs => simp at h
    subst this; rfl
  | succ f ih =>
    intro l h
    cases l with
    | nil => rfl
    | cons x xs =>
      rw [toBlocksAux]
      simp only [List.flatten_cons]
      rw [ih _ (by simp only [List.length_drop, List.length_cons] at h ⊢; omega)]
      exact List.take_append_drop 16 (x :: xs)

theorem toBlocks_flatten (l : List Nat) : (toBlocks l).flatten = l :=
  toBlocksAux_flatten l.length l le_rfl

theorem toBlocksAux_block_length :
    ∀ (fuel : Nat) (l : List Nat), l.length ≤ fuel → 16 ∣ l.length →
      ∀ b ∈ toBlocksAux fuel l, b.length = 16 := by
  intro fuel
  induction fuel with
  | zero => intro l _ _ b hb; cases l <;> simp [toBlocksAux] at hb
  | succ f ih =>
    intro l hle hdvd b hb
    cases l with
    | nil => simp [toBlocksAux] at hb
    | cons x xs =>
      rw [toBlocksAux] at hb
      have hpos : 0 < (x :: xs).length := by simp
      have h16 : 16 ≤ (x :: xs).length := Nat.le_of_dvd hpos hdvd
      rw [List.mem_cons] at hb
      simp only [List.length_cons] at h16 hle
      rcases hb with hb | hb
      · subst hb
        simp only [List.length_take, List.length_cons]
        omega
      · refine ih _ ?_ ?_ b hb
        · simp only [List.length_drop, List.length_cons]; omega
        · simp only [List.length_drop]
          obtain ⟨c, hc⟩ := hdvd
          exact ⟨c - 1, by omega⟩

theorem toBlocks_block_length :
    ∀ l : List Nat, 16 ∣ l.length → ∀ b ∈ toBlocks l, b.length = 16 :=
  fun l hdvd => toBlocksAux_block_length l.length l le_rfl hdvd

theorem cbcDec_cbcEnc (bc : BlockCipher) (k : List Nat) :
    ∀ (blocks : List (List Nat)) (iv : List Nat), iv.length = 16 →
      (∀ b ∈ blocks, b.length = 16) →
      cbcDec bc k iv (cbcEnc bc k iv blocks) = blocks := by
  intro blocks
  induction blocks with
  | nil => intro iv _ _; rfl
  | cons b bs ih =>
    intro iv hiv hlen
    have hb : b.length = 16 := hlen b (by simp)
    have hxor : (xorB iv b).length = 16 := by
      rw [xorB_length, hiv, hb]; simp
    have hc : (bc.enc k (xorB iv b)).length = 16 := bc.enc_len k _ hxor
    rw [cbcEnc, cbcDec]
    rw [bc.dec_enc k _ hxor]
    rw [xorB_xorB iv b (by omega)]
    rw [ih _ hc (fun b₂ h₂ => hlen b₂ (by simp [h₂]))]

/-- Round-trip of the full crypto-js passphrase pipeline: CBC over any
correct block cipher, PKCS7 pad/unpad, UTF-8 gate. -/
theorem decryptContent_encryptContent (bc : BlockCipher)
    (content key salt : List Nat) (hvalid : isValidUtf8 content = true) :
    decryptContent bc (encryptContent bc content key salt) key = some content := by
  have hdvd : 16 ∣ (padPkcs7 content).length :=
    Nat.dvd_of_mod_eq_zero (padPkcs7_length_mod content)
  simp only [encryptContent, decryptContent]
  rw [cbcDec_cbcEnc bc _ _ _ (bc.kdf_iv_len key salt)
      (toBlocks_block_length _ hdvd)]
  rw [toBlocks_flatten, unpadPkcs7_padPkcs7]
  rw [if_pos hvalid]

/-! #### A concrete `BlockCipher` instance for evaluation

Witnesses and counterexamples need a computable instance standing in for
the external AES primitive.  `xorCipher` is a keyed involutive permutation
on 16-byte blocks — structurally a block cipher — with a key-stream taken
from the derived key and an IV derived from the salt, mirroring the shape
(not the strength) of EvpKDF + AES. -/

def ksOf (k : List Nat) : List Nat := (k ++ List.replicate 16 0).take 16

theorem ksOf_length (k : List Nat) : (ksOf k).length = 16 := by
  simp [ksOf]

def xorCipher : BlockCipher where
  enc := fun k b => xorB (ksOf k) b
  dec := fun k b => xorB (ksOf k) b
  kdf := fun p s =>
    ((p ++ s ++ List.replicate 32 0).take 32, (s ++ List.replicate 16 0).take 16)
  enc_len := by
    intro k b hb
    rw [xorB_length, ksOf_length, hb]; simp
  dec_enc := by
    intro k b hb
    exact xorB_xorB (ksOf k) b (by rw [ksOf_length, hb])
  kdf_iv_len := by
    intro p s
    simp

/-! ### Wallet-derived key (`generateWalletKey`, Editor.tsx lines 127–145)

The connected wallet's `signMessage` and `CryptoJS.SHA256` are external
primitives, passed in as functions.  `personal_sign` over a fixed message
with a fixed signing identity is deterministic (RFC 6979), which the
functional modelling captures. -/

/-- The connected wallet: `window.ethereum` presence and the signer. -/
structure Wallet where
  connected : Bool
  sign : String → Except String String

/-- The deterministic key-derivation message
`` `Access note ${cid} for ${userAddress.toLowerCase()}` ``. -/
def mkKeyMessage (userAddress cid : String) : String :=
  "Access note " ++ cid ++ " for " ++ toLowerStr userAddress

/-- `generateWalletKey(userAddress, cid)`: fail when no wallet is
connected, otherwise hash the wallet's signature over the fixed message. -/
def generateWalletKey (w : Wallet) (sha256 : String → String)
    (userAddress cid : String) : Except String String :=
  if w.connected then
    match w.sign (mkKeyMessage userAddress cid) with
    | .ok sig => .ok (sha256 sig)
    | .error e => .error ("Failed to generate wallet key: " ++ e)
  else .error "No wallet connected"

/-! ### Relay retry loop (`relayTransaction`, useSafeSmartWallet.ts 183–234)

The Safe/Gelato submission call is external; each attempt's outcome is an
oracle `submit : Nat → AttemptResult` indexed by the attempt number.  The
loop itself — classification of rate-limit errors, the bound of 3 attempts,
the `2^attempt * 1000` ms backoff — is embedded concretely. -/

/-- A relay submission result, mirroring the fields the source inspects. -/
structure RelayResult where
  taskId : Option String := none
  hash : Option String := none
  transactionHash : Option String := none
deriving DecidableEq

inductive AttemptResult where
  | ok (r : RelayResult)
  | err (msg : String)

instance {ε α : Type} [DecidableEq ε] [DecidableEq α] : DecidableEq (Except ε α) :=
  fun a b =>
    match a, b with
    | .ok x, .ok y =>
      if h : x = y then .isTrue (by rw [h]) else .isFalse (by intro hc; cases hc; exact h rfl)
    | .error x, .error y =>
      if h : x = y then .isTrue (by rw [h]) else .isFalse (by intro hc; cases hc; exact h rfl)
    | .ok _, .error _ => .isFalse (by intro hc; cases hc)
    | .error _, .ok _ => .isFalse (by intro hc; cases hc)

/-- `error.message.includes("Too many requests") || error.message.includes("429")`. -/
def isRateLimitMsg (m : String) : Bool :=
  containsSub m "Too many requests" || containsSub m "429"

/-- Outcome of the retry loop: final result, number of attempts actually
made, and the backoff delays (ms) awaited between attempts. -/
structure RetryOutcome where
  result : Except String RelayResult
  attemptsMade : Nat
  delaysMs : List Nat
deriving DecidableEq

/-- The `for (attempt = 1; attempt <= maxRetries; attempt++)` body. -/
def relayAttempts (submit : Nat → AttemptResult) : Nat → Nat → RetryOutcome
  | 0, attempt => { result := .error "unreachable", attemptsMade := attempt - 1, delaysMs := [] }
  | fuel + 1, attempt =>
    match submit attempt with
    | .ok r => { result := .ok r, attemptsMade := attempt, delaysMs := [] }
    | .err m =>
      if isRateLimitMsg m then
        if attempt < 3 then
          let d := 2 ^ attempt * 1000
          let rest := relayAttempts submit fuel (attempt + 1)
          { result := rest.result, attemptsMade := rest.attemptsMade,
            delaysMs := d :: rest.delaysMs }
        else
          { result := .error
              "Transaction failed after 3 attempts due to rate limiting. Please try again later.",
            attemptsMade := attempt, delaysMs := [] }
      else
        { result := .error ("Transaction failed: " ++ m),
          attemptsMade := attempt, delaysMs := [] }

/-- `relayTransaction`'s submission loop with `maxRetries = 3`. -/
def relayTransactionRetry (submit : Nat → AttemptResult) : RetryOutcome :=
  relayAttempts submit 3 1

/-! ### The save pipeline (`saveNoteToIPFS`, Editor.tsx lines 266–452)

External effects — IPFS upload and the relay — are oracle functions in
`SaveEnv`; the randomness the source draws (content key, salts, clock) is
made explicit in `SaveInput`.  The returned `SaveOutcome` records every
observable effect: toasts, uploads, relay submissions, and the new local
note list. -/

/-- `SavedNote` (Editor.tsx lines 53–62). -/
structure SavedNote where
  cid : String
  title : String
  timestamp : Nat
  owner : String
  collaborator : Option String := none
  nftGate : Option String := none
  txHash : Option String := none
  isShared : Bool
deriving DecidableEq

/-- The JSON envelope pinned to IPFS (Editor.tsx lines 319–325). -/
structure CipherData where
  encryptedContent : Ciphertext
  owner : String
  timestamp : String
  version : String
  nftGate : Option String
deriving DecidableEq

/-- A registry call descriptor (Editor.tsx lines 347–357, 391–401). -/
inductive RegistryCall where
  | addNote (cid : String) (nftAddr : String) (encKeyOwner : Ciphertext)
  | addCollaborator (noteId : String) (collaborator : String)
      (encKeyCollaborator : Ciphertext)
deriving DecidableEq

structure TxData where
  toAddr : String
  call : RegistryCall
deriving DecidableEq

/-- External collaborators of the save pipeline. -/
structure SaveEnv where
  bc : BlockCipher
  wallet : Wallet
  sha256 : String → String
  upload : CipherData → Except String String
  hasRelay : Bool
  relay : TxData → Except String RelayResult
  registryAddress : String

/-- The component state and the randomness a single save consumes. -/
structure SaveInput where
  note : String
  ownerAddress : Option String
  collaboratorAddress : String
  nftGateAddress : String
  isDeployed : Bool
  contentKey : String
  saltContent : List Nat
  saltOwnerKey : List Nat
  saltCollabKey : List Nat
  timestampIso : String
  nowMs : Nat

/-- Observable effects of one `saveNoteToIPFS` run. -/
structure SaveOutcome where
  errors : List String := []
  collabError : Option String := none
  warnings : List String := []
  uploads : List CipherData := []
  relayCalls : List TxData := []
  savedNotes : List SavedNote
  saved : Bool := false

/-- The encrypted envelope built in steps 1–3 of the save flow. -/
def saveCipherData (env : SaveEnv) (inp : SaveInput) (ownerAddr : String) : CipherData :=
  { encryptedContent :=
      encryptContent env.bc
        (utf8Encode (serializeNote inp.note inp.timestampIso))
        (utf8Encode inp.contentKey) inp.saltContent,
    owner := toLowerStr ownerAddr,
    timestamp := inp.timestampIso,
    version := "1.0",
    nftGate :=
      if trimStr inp.nftGateAddress = "" then none
      else some (toLowerStr inp.nftGateAddress) }

/-- Wrap the content key under a wallet-derived key (steps 4 and 6). -/
def wrapContentKey (env : SaveEnv) (inp : SaveInput) (walletKey : String)
    (salt : List Nat) : Ciphertext :=
  encryptContent env.bc (utf8Encode inp.contentKey) (utf8Encode walletKey) salt

/-- The `addNote` descriptor: `nftAddr` is the trimmed gate or
`ethers.ZeroAddress` (Editor.tsx line 353). -/
def addNoteTx (env : SaveEnv) (inp : SaveInput) (cid : String)
    (encKeyOwner : Ciphertext) : TxData :=
  { toAddr := env.registryAddress,
    call := .addNote cid
      (if trimStr inp.nftGateAddress = "" then zeroAddress else trimStr inp.nftGateAddress)
      encKeyOwner }

/-- The `addCollaborator` descriptor (Editor.tsx lines 391–401). -/
def addCollaboratorTx (env : SaveEnv) (inp : SaveInput) (cid : String)
    (encKeyCollaborator : Ciphertext) : TxData :=
  { toAddr := env.registryAddress,
    call := .addCollaborator cid (toLowerStr inp.collaboratorAddress)
      encKeyCollaborator }

/-- `txHash` extraction from the relay result (Editor.tsx lines 362–371). -/
def extractTxHash (r : RelayResult) : Option String :=
  match r.taskId with
  | some t => some ("gelato-" ++ t)
  | none =>
    match r.hash with
    | some h => some h
    | none => r.transactionHash

/-- Step 6 (Editor.tsx lines 380–413): the collaborator block's own
try/catch.  Returns the caught error (if any) and the relay calls made.
When `relayTransaction` is not provided the JS call throws before any
submission (`relayTransaction` is `undefined`). -/
def collaboratorStep (env : SaveEnv) (inp : SaveInput) (cid : String) :
    Option String × List TxData :=
  match generateWalletKey env.wallet env.sha256 inp.collaboratorAddress cid with
  | .error e => (some ("Failed to add collaborator: " ++ e), [])
  | .ok collaboratorWalletKey =>
    let tx := addCollaboratorTx env inp cid
      (wrapContentKey env inp collaboratorWalletKey inp.saltCollabKey)
    if env.hasRelay then
      match env.relay tx with
      | .error e => (some ("Failed to add collaborator: " ++ e), [tx])
      | .ok _ => (none, [tx])
    else
      (some "Failed to add collaborator: relayTransaction is not a function", [])

/-- The `SavedNote` appended on success (Editor.tsx lines 426–435). -/
def newSavedNote (inp : SaveInput) (cid : String) (txHash : Option String) :
    String → SavedNote :=
  fun ownerAddr =>
    { cid := cid,
      title := titleOf inp.note,
      timestamp := inp.nowMs,
      owner := toLowerStr ownerAddr,
      collaborator :=
        if trimStr inp.collaboratorAddress = "" then none
        else some (toLowerStr inp.collaboratorAddress),
      nftGate :=
        if trimStr inp.nftGateAddress = "" then none
        else some (toLowerStr inp.nftGateAddress),
      txHash := txHash,
      isShared := decide (trimStr inp.collaboratorAddress ≠ "") }

/-- Steps 6–7 once registration has settled: collaborator block, success
toast, list append (Editor.tsx lines 380–444). -/
def saveFinish (env : SaveEnv) (inp : SaveInput) (prev : List SavedNote)
    (ownerAddr cid : String) (cipherData : CipherData)
    (mainCalls : List TxData) (txHash : Option String) : SaveOutcome :=
  let collab :=
    if trimStr inp.collaboratorAddress = "" then (none, ([] : List TxData))
    else collaboratorStep env inp cid
  { errors := [],
    collabError := collab.1,
    warnings :=
      match collab.1 with
      | some _ => ["Note was saved but collaborator addition failed"]
      | none => [],
    uploads := [cipherData],
    relayCalls := mainCalls ++ collab.2,
    savedNotes := newSavedNote inp cid txHash ownerAddr :: prev,
    saved := true }

/-- `saveNoteToIPFS` (Editor.tsx lines 266–452): validation, serialize,
encrypt, upload, derive owner key, wrap, register, optional collaborator
share, append to the local list. -/
def saveNoteToIPFS (env : SaveEnv) (inp : SaveInput) (prev : List SavedNote) :
    SaveOutcome :=
  if trimStr inp.note = "" then
    { errors := ["Please enter some content before saving"], savedNotes := prev }
  else
    match inp.ownerAddress with
    | none => { errors := ["Please connect your wallet first"], savedNotes := prev }
    | some ownerAddr =>
      if trimStr inp.collaboratorAddress ≠ "" ∧ isValidAddress inp.collaboratorAddress = false then
        { errors := ["Invalid collaborator address"], savedNotes := prev }
      else if trimStr inp.nftGateAddress ≠ "" ∧ isValidAddress inp.nftGateAddress = false then
        { errors := ["Invalid NFT gate address"], savedNotes := prev }
      else
        let cipherData := saveCipherData env inp ownerAddr
        match env.upload cipherData with
        | .error e =>
          { errors := ["Failed to save note: " ++ e], savedNotes := prev }
        | .ok cid =>
          match generateWalletKey env.wallet env.sha256 ownerAddr cid with
          | .error e =>
            { errors := ["Failed to save note: " ++ e], savedNotes := prev,
              uploads := [cipherData] }
          | .ok ownerWalletKey =>
            let encryptedKeyForOwner :=
              wrapContentKey env inp ownerWalletKey inp.saltOwnerKey
            if env.hasRelay ∧ inp.isDeployed then
              let tx := addNoteTx env inp cid encryptedKeyForOwner
              match env.relay tx with
              | .error e =>
                { errors := ["Failed to save note: " ++ e], savedNotes := prev,
                  uploads := [cipherData], relayCalls := [tx] }
              | .ok r =>
                saveFinish env inp prev ownerAddr cid cipherData [tx] (extractTxHash r)
            else
              saveFinish env inp prev ownerAddr cid cipherData [] none

/-! ### The load pipeline (`loadNotesFromBlockchain`, Editor.tsx 474–581)

IPFS fetch, JSON parsing and timestamp parsing are oracles in `LoadEnv`;
the per-record decryption chain, the per-item try/catch, the merge and the
one-shot latch are embedded concretely. -/

/-- One registry record as returned by `getUserNotes`. -/
structure NoteRecord where
  cid : String
  nftAddr : String
  encKey : Ciphertext
deriving DecidableEq

/-- The parsed decrypted note payload (`JSON.parse(decryptedNote)`). -/
structure NoteData where
  content : String
  timestamp : String
deriving DecidableEq

/-- External collaborators and hook state the load flow reads. -/
structure LoadEnv where
  bc : BlockCipher
  wallet : Wallet
  sha256 : String → String
  ownerAddress : Option String
  safeAddress : Option String
  hasGetUserNotes : Bool
  hasProvider : Bool
  getNotes : String → Except String (List NoteRecord)
  fetchIpfs : String → Except String Ciphertext
  parseNote : List Nat → Except String NoteData
  parseTime : String → Nat

structure LoadState where
  savedNotes : List SavedNote
  loadedFromChain : Bool
deriving DecidableEq

structure LoadOutcome where
  state : LoadState
  loaded : List SavedNote
  failures : List (Nat × String)
  errors : List String
deriving DecidableEq

/-- Per-record processing (Editor.tsx lines 513–549): fetch, derive wallet
key for the signing address, unwrap content key, decrypt payload, parse.
Any step's exception becomes `.error`. -/
def processRecord (env : LoadEnv) (ownerAddr : String) (prev : List SavedNote)
    (r : NoteRecord) : Except String SavedNote := do
  let ipfsData ← env.fetchIpfs r.cid
  let walletKey ← generateWalletKey env.wallet env.sha256 ownerAddr r.cid
  let decryptedContentKey ←
    match decryptContent env.bc r.encKey (utf8Encode walletKey) with
    | some b => Except.ok b
    | none => Except.error "Malformed UTF-8 data"
  let decryptedNote ←
    match decryptContent env.bc ipfsData decryptedContentKey with
    | some b => Except.ok b
    | none => Except.error "Malformed UTF-8 data"
  let noteData ← env.parseNote decryptedNote
  Except.ok
    { cid := r.cid,
      title := titleOf noteData.content,
      timestamp := env.parseTime noteData.timestamp,
      owner := toLowerStr ownerAddr,
      collaborator := none,
      nftGate := if r.nftAddr = zeroAddress then none else some r.nftAddr,
      txHash := ((prev.find? (fun n => n.cid == r.cid)).map (·.txHash)).join,
      isShared := false }

/-- The `for (let i = 0; ...)` loop with its per-item try/catch
(Editor.tsx lines 512–554).  Failures are reported as
`(i + 1, message)`, mirroring ``Failed to decrypt note ${i + 1}``. -/
def loadLoop (env : LoadEnv) (ownerAddr : String) (prev : List SavedNote) :
    Nat → List NoteRecord → List SavedNote × List (Nat × String)
  | _, [] => ([], [])
  | i, r :: rs =>
    let rest := loadLoop env ownerAddr prev (i + 1) rs
    match processRecord env ownerAddr prev r with
    | .ok n => (n :: rest.1, rest.2)
    | .error e => (rest.1, (i + 1, e) :: rest.2)

/-- The `setSavedNotes` merge (Editor.tsx lines 557–569): keep txHashes
known locally, drop loaded notes whose cid is already held, prepend. -/
def mergeLoadedNotes (loadedNotes prev : List SavedNote) : List SavedNote :=
  let existingCids := prev.map (·.cid)
  let mergedNotes := loadedNotes.map (fun ln =>
    match prev.find? (fun n => n.cid == ln.cid) with
    | some existing => { ln with txHash := existing.txHash }
    | none => ln)
  let uniqueLoadedNotes := mergedNotes.filter (fun n => !existingCids.contains n.cid)
  uniqueLoadedNotes ++ prev

/-- `loadNotesFromBlockchain` (Editor.tsx lines 474–581): guards, one-shot
latch, registry query, per-record loop, merge, latch set. -/
def loadNotesFromBlockchain (env : LoadEnv) (st : LoadState) : LoadOutcome :=
  if env.ownerAddress.isNone ∨ env.safeAddress.isNone ∨
      env.hasGetUserNotes = false ∨ env.hasProvider = false then
    { state := st, loaded := [], failures := [],
      errors :=
        (if env.hasGetUserNotes = false then
          ["getUserNotes function not available. Please reconnect your wallet."] else []) ++
        (if env.safeAddress.isNone then
          ["Safe address not available. Please ensure wallet is connected."] else []) }
  else if st.loadedFromChain then
    { state := st, loaded := [], failures := [], errors := [] }
  else
    match env.ownerAddress, env.safeAddress with
    | some ownerAddr, some safeAddr =>
      (match env.getNotes safeAddr with
        | .error e =>
          { state := st, loaded := [], failures := [],
            errors := ["Failed to load notes: " ++ e] }
        | .ok records =>
          if records.isEmpty then
            { state := { st with loadedFromChain := true },
              loaded := [], failures := [], errors := [] }
          else
            let r := loadLoop env ownerAddr st.savedNotes 0 records
            { state :=
                { savedNotes := mergeLoadedNotes r.1 st.savedNotes,
                  loadedFromChain := true },
              loaded := r.1, failures := r.2, errors := [] })
    | _, _ =>
      { state := st, loaded := [], failures := [], errors := [] }

/-- Occurrences of a content identifier in a note list. -/
def countCid (c : String) (l : List SavedNote) : Nat :=
  (l.filter (fun n => n.cid == c)).length

/-! ### Shared helper lemmas -/

theorem string_ext {s t : String} (h : s.data = t.data) : s = t := by
  cases s; cases t; exact congrArg String.mk h

theorem string_append_cancel_left {s x y : String} (h : s ++ x = s ++ y) : x = y := by
  apply string_ext
  have hd := congrArg String.data h
  rw [String.data_append, String.data_append] at hd
  exact List.append_cancel_left hd

theorem mkKeyMessage_eq_iff_lower {A B C : String}
    (h : mkKeyMessage A C = mkKeyMessage B C) : toLowerStr A = toLowerStr B := by
  unfold mkKeyMessage at h
  have h2 : ("Access note " ++ C ++ " for ") ++ toLowerStr A
      = ("Access note " ++ C ++ " for ") ++ toLowerStr B := by
    apply string_ext
    have hd := congrArg String.data h
    simp only [String.data_append] at hd ⊢
    simpa [List.append_assoc] using hd
  exact string_append_cancel_left h2

/-- From a successful key derivation, recover the signature it hashed. -/
theorem generateWalletKey_ok {w : Wallet} {sha256 : String → String}
    {A C k : String} (h : generateWalletKey w sha256 A C = .ok k) :
    w.connected = true ∧ ∃ s, w.sign (mkKeyMessage A C) = .ok s ∧ k = sha256 s := by
  by_cases hc : w.connected
  · refine ⟨hc, ?_⟩
    rw [generateWalletKey, if_pos hc] at h
    rcases hs : w.sign (mkKeyMessage A C) with e | s
    · rw [hs] at h; cases h
    · rw [hs] at h
      refine ⟨s, rfl, ?_⟩
      cases h; rfl
  · rw [generateWalletKey, if_neg hc] at h
    cases h

theorem countCid_zero_beq_false {c : String} {prev : List SavedNote}
    (h : countCid c prev = 0) : ∀ x ∈ prev, (x.cid == c) = false := by
  intro x hx
  have hnil : prev.filter (fun n => n.cid == c) = [] :=
    List.length_eq_zero.mp h
  have := List.filter_eq_nil_iff.mp hnil x hx
  simpa using this

theorem countCid_zero_find_none {c : String} {prev : List SavedNote}
    (h : countCid c prev = 0) :
    prev.find? (fun n => n.cid == c) = none :=
  List.find?_eq_none.mpr (fun x hx => by
    rw [countCid_zero_beq_false h x hx]; simp)

theorem countCid_zero_contains_false {c : String} {prev : List SavedNote}
    (h : countCid c prev = 0) :
    (prev.map (·.cid)).contains c = false := by
  cases hb : (prev.map (·.cid)).contains c
  · rfl
  · exfalso
    have hmem : c ∈ prev.map (·.cid) := List.elem_iff.mp hb
    obtain ⟨x, hxmem, hxeq⟩ := List.mem_map.mp hmem
    have := countCid_zero_beq_false h x hxmem
    rw [hxeq] at this
    simp at this

theorem mergeLoadedNotes_not_held (n : SavedNote) (prev : List SavedNote)
    (h : countCid n.cid prev = 0) :
    mergeLoadedNotes [n] prev = n :: prev := by
  simp only [mergeLoadedNotes, List.map_cons, List.map_nil,
    countCid_zero_find_none h, List.filter_cons, List.filter_nil,
    countCid_zero_contains_false h]
  rfl

theorem mergeLoadedNotes_frame (loaded prev : List SavedNote) :
    ∃ fresh, mergeLoadedNotes loaded prev = fresh ++ prev ∧
      ∀ x ∈ fresh, x.cid ∈ loaded.map (·.cid) ∧ x.cid ∉ prev.map (·.cid) := by
  simp only [mergeLoadedNotes]
  refine ⟨_, rfl, ?_⟩
  intro x hx
  rw [List.mem_filter] at hx
  obtain ⟨hxm, hxf⟩ := hx
  obtain ⟨ln, hln, heq⟩ := List.mem_map.mp hxm
  have hcid : x.cid = ln.cid := by
    rcases hfind : prev.find? (fun n => n.cid == ln.cid) with _ | ex <;>
      rw [hfind] at heq <;> subst heq <;> rfl
  constructor
  · rw [hcid]
    exact List.mem_map.mpr ⟨ln, hln, rfl⟩
  · intro hmem
    have hc : (prev.map (·.cid)).contains x.cid = true := List.elem_iff.mpr hmem
    rw [hc] at hxf
    simp at hxf

/-! ### Claim theorems -/

/-- C2: for every plaintext document `D` (the UTF-8 bytes of a
JavaScript string), every content key `K` and every salt, and any
correct block-cipher primitive, decrypting the encryption of `D` under
`K` with the same key `K` returns exactly `D`. -/
theorem decrypt_encrypt_roundtrip (bc : BlockCipher) (D K salt : List Nat)
    (hD : isValidUtf8 D = true) :
    decryptContent bc (encryptContent bc D K salt) K = some D :=
  decryptContent_encryptContent bc D K salt hD

theorem decrypt_encrypt_roundtrip_witness :
    isValidUtf8 (utf8Encode "Hello\nWorld") = true ∧
    decryptContent xorCipher
        (encryptContent xorCipher (utf8Encode "Hello\nWorld")
          (utf8Encode "a3f2contentkey") [9, 1, 4, 4])
        (utf8Encode "a3f2contentkey") = some (utf8Encode "Hello\nWorld") :=
  ⟨by decide,
   decrypt_encrypt_roundtrip xorCipher (utf8Encode "Hello\nWorld")
     (utf8Encode "a3f2contentkey") [9, 1, 4, 4] (by decide)⟩

/-- C1: falsified by the code.  `decryptContent` under a wrong key does
NOT reliably fail: the crypto-js pipeline strips PKCS7 padding without
validation and errors only on malformed UTF-8, so a wrong key can
silently yield garbage output — here a 15-byte document decrypted under
a different key silently returns the empty string (`some []`), not a
`DecryptionFailed` error, exactly the known-weakness behavior of the
non-authenticated mode. -/
theorem decryptContent_wrong_key_silent_garbage :
    decryptContent xorCipher
        (encryptContent xorCipher (utf8Encode "AAAAAAAAAAAAAAA")
          (utf8Encode "0123456789abcdef") [])
        (utf8Encode "0123456789abcdew") = some [] ∧
    utf8Encode "0123456789abcdef" ≠ utf8Encode "0123456789abcdew" ∧
    utf8Encode "AAAAAAAAAAAAAAA" ≠ [] := by
  refine ⟨by decide, by decide, by decide⟩

/-- C3: `generateWalletKey` signs exactly the fixed message embedding
the lower-cased address and the content identifier, and returns the
SHA-256 digest of the signature; the derived key depends on the address
only through its lower-casing, so for a fixed signing identity the same
`(address, cid)` pair always yields the same key. -/
theorem generateWalletKey_spec (w : Wallet) (sha256 : String → String)
    (A A' C sig : String)
    (hconn : w.connected = true)
    (hsig : w.sign (mkKeyMessage A C) = .ok sig)
    (hA' : toLowerStr A' = toLowerStr A) :
    generateWalletKey w sha256 A C = .ok (sha256 sig) ∧
    mkKeyMessage A C = "Access note " ++ C ++ " for " ++ toLowerStr A ∧
    generateWalletKey w sha256 A' C = generateWalletKey w sha256 A C := by
  refine ⟨?_, rfl, ?_⟩
  · rw [generateWalletKey, if_pos hconn, hsig]
  · rw [generateWalletKey, generateWalletKey, mkKeyMessage, mkKeyMessage, hA']

theorem generateWalletKey_spec_witness :
    (⟨true, fun m => Except.ok ("sig:" ++ m)⟩ : Wallet).connected = true ∧
    (⟨true, fun m => Except.ok ("sig:" ++ m)⟩ : Wallet).sign
        (mkKeyMessage "0xAbCd" "QmCid1") = .ok ("sig:" ++ mkKeyMessage "0xAbCd" "QmCid1") ∧
    toLowerStr "0xaBcD" = toLowerStr "0xAbCd" ∧
    (generateWalletKey ⟨true, fun m => Except.ok ("sig:" ++ m)⟩
        (fun s => "sha:" ++ s) "0xAbCd" "QmCid1"
      = .ok ((fun s => "sha:" ++ s) ("sig:" ++ mkKeyMessage "0xAbCd" "QmCid1")) ∧
    mkKeyMessage "0xAbCd" "QmCid1"
      = "Access note " ++ "QmCid1" ++ " for " ++ toLowerStr "0xAbCd" ∧
    generateWalletKey ⟨true, fun m => Except.ok ("sig:" ++ m)⟩
        (fun s => "sha:" ++ s) "0xaBcD" "QmCid1"
      = generateWalletKey ⟨true, fun m => Except.ok ("sig:" ++ m)⟩
        (fun s => "sha:" ++ s) "0xAbCd" "QmCid1") :=
  ⟨rfl, rfl, by decide,
   generateWalletKey_spec ⟨true, fun m => Except.ok ("sig:" ++ m)⟩
     (fun s => "sha:" ++ s) "0xAbCd" "0xaBcD" "QmCid1"
     ("sig:" ++ mkKeyMessage "0xAbCd" "QmCid1") rfl rfl (by decide)⟩

/-- C5: against a persistently rate-limited relay, the submission loop
makes exactly 3 attempts, waiting 2000 ms after the first failure and
4000 ms after the second (6000 ms of delay before the third attempt),
then surfaces the terminal rate-limit error; a non-rate-limit error is
surfaced immediately after a single attempt with no delay. -/
theorem relayTransactionRetry_policy
    (submit submitOther : Nat → AttemptResult) (m1 m2 m3 mo : String)
    (h1 : submit 1 = .err m1) (h2 : submit 2 = .err m2) (h3 : submit 3 = .err m3)
    (hr1 : isRateLimitMsg m1 = true) (hr2 : isRateLimitMsg m2 = true)
    (hr3 : isRateLimitMsg m3 = true)
    (ho : submitOther 1 = .err mo) (hro : isRateLimitMsg mo = false) :
    relayTransactionRetry submit =
      { result := .error
          "Transaction failed after 3 attempts due to rate limiting. Please try again later.",
        attemptsMade := 3, delaysMs := [2000, 4000] } ∧
    relayTransactionRetry submitOther =
      { result := .error ("Transaction failed: " ++ mo),
        attemptsMade := 1, delaysMs := [] } := by
  constructor
  · simp only [relayTransactionRetry, relayAttempts, h1, h2, h3, hr1, hr2, hr3]
    norm_num
  · simp only [relayTransactionRetry, relayAttempts, ho, hro]
    norm_num

theorem relayTransactionRetry_policy_witness :
    relayTransactionRetry (fun _ => .err "429: Too many requests") =
      { result := .error
          "Transaction failed after 3 attempts due to rate limiting. Please try again later.",
        attemptsMade := 3, delaysMs := [2000, 4000] } ∧
    relayTransactionRetry (fun _ => .err "execution reverted") =
      { result := .error ("Transaction failed: " ++ "execution reverted"),
        attemptsMade := 1, delaysMs := [] } :=
  relayTransactionRetry_policy (fun _ => .err "429: Too many requests")
    (fun _ => .err "execution reverted")
    "429: Too many requests" "429: Too many requests" "429: Too many requests"
    "execution reverted" rfl rfl rfl (by decide) (by decide) (by decide)
    rfl (by decide)

/-- C8: a failure while processing any single registry record is caught
and reported without aborting the rest of the loop: with 3 records where
record 2 throws, records 1 and 3 are loaded and exactly one failure is
reported, for record 2. -/
theorem loadLoop_isolates_failures (env : LoadEnv) (ownerAddr : String)
    (prev : List SavedNote) (r1 r2 r3 : NoteRecord) (n1 n3 : SavedNote) (e : String)
    (h1 : processRecord env ownerAddr prev r1 = .ok n1)
    (h2 : processRecord env ownerAddr prev r2 = .error e)
    (h3 : processRecord env ownerAddr prev r3 = .ok n3) :
    loadLoop env ownerAddr prev 0 [r1, r2, r3] = ([n1, n3], [(2, e)]) := by
  rw [loadLoop, loadLoop, loadLoop, loadLoop, h1, h2, h3]

/-! ### A concrete load environment for witnesses -/

def demoWallet : Wallet := ⟨true, fun m => .ok m⟩

/-- Wallet key the demo environment derives for the owner `0xaa`. -/
def demoWKey (c : String) : String := mkKeyMessage "0xaa" c

/-- Content key `"ck"` wrapped under the demo wallet key for cid `c`. -/
def demoEncKey (c : String) : Ciphertext :=
  encryptContent xorCipher (utf8Encode "ck") (utf8Encode (demoWKey c)) []

/-- A note body encrypted under the demo content key. -/
def demoCt : Ciphertext :=
  encryptContent xorCipher (utf8Encode "notebody") (utf8Encode "ck") []

def demoRecord (c : String) : NoteRecord := ⟨c, zeroAddress, demoEncKey c⟩

def demoNote (c : String) : SavedNote :=
  ⟨c, "hi", 0, "0xaa", none, none, none, false⟩

def demoLoadEnv : LoadEnv :=
  { bc := xorCipher, wallet := demoWallet, sha256 := id,
    ownerAddress := some "0xaa", safeAddress := some "0xsafe",
    hasGetUserNotes := true, hasProvider := true,
    getNotes := fun _ => .ok [demoRecord "c1"],
    fetchIpfs := fun c =>
      if c = "c2" then .error "IPFS fetch timeout - please try again"
      else .ok demoCt,
    parseNote := fun b =>
      if b = utf8Encode "notebody" then .ok ⟨"hi", "t0"⟩
      else .error "Unexpected token",
    parseTime := fun _ => 0 }

set_option maxRecDepth 100000 in
theorem loadLoop_isolates_failures_witness :
    processRecord demoLoadEnv "0xaa" [] (demoRecord "c1") = .ok (demoNote "c1") ∧
    processRecord demoLoadEnv "0xaa" [] (demoRecord "c2")
      = .error "IPFS fetch timeout - please try again" ∧
    processRecord demoLoadEnv "0xaa" [] (demoRecord "c3") = .ok (demoNote "c3") ∧
    loadLoop demoLoadEnv "0xaa" [] 0
        [demoRecord "c1", demoRecord "c2", demoRecord "c3"]
      = ([demoNote "c1", demoNote "c3"],
         [(2, "IPFS fetch timeout - please try again")]) :=
  ⟨by decide, by decide, by decide,
   loadLoop_isolates_failures demoLoadEnv "0xaa" []
     (demoRecord "c1") (demoRecord "c2") (demoRecord "c3")
     (demoNote "c1") (demoNote "c3") "IPFS fetch timeout - please try again"
     (by decide) (by decide) (by decide)⟩

/-- C10: the merge step never removes, reorders or replaces notes already
held: after any load, the previous list is an unchanged suffix of the new
list, and everything in front of it is a newly loaded note whose cid was
not already held. -/
theorem load_preserves_local_notes (env : LoadEnv) (st : LoadState) :
    ∃ fresh, (loadNotesFromBlockchain env st).state.savedNotes = fresh ++ st.savedNotes ∧
      ∀ x ∈ fresh, x.cid ∉ st.savedNotes.map (·.cid) ∧
        x.cid ∈ (loadNotesFromBlockchain env st).loaded.map (·.cid) := by
  by_cases hguard : env.ownerAddress.isNone ∨ env.safeAddress.isNone ∨
      env.hasGetUserNotes = false ∨ env.hasProvider = false
  · rw [loadNotesFromBlockchain, if_pos hguard]
    exact ⟨[], rfl, by simp⟩
  · rw [loadNotesFromBlockchain, if_neg hguard]
    by_cases hlatch : st.loadedFromChain
    · rw [if_pos hlatch]
      exact ⟨[], rfl, by simp⟩
    · rw [if_neg hlatch]
      rcases ho : env.ownerAddress with _ | o
      · simp only [ho]
        exact ⟨[], rfl, by simp⟩
      · rcases hs : env.safeAddress with _ | safe
        · simp only [ho, hs]
          exact ⟨[], rfl, by simp⟩
        · simp only [ho, hs]
          rcases hg : env.getNotes safe with e | records
          · simp only []
            exact ⟨[], rfl, by simp⟩
          · simp only []
            by_cases hemp : records.isEmpty
            · rw [if_pos hemp]
              exact ⟨[], rfl, by simp⟩
            · rw [if_neg hemp]
              obtain ⟨fresh, hf, hmem⟩ :=
                mergeLoadedNotes_frame (loadLoop env o st.savedNotes 0 records).1
                  st.savedNotes
              refine ⟨fresh, by simpa using hf, ?_⟩
              intro x hx
              exact ⟨(hmem x hx).2, by simpa using (hmem x hx).1⟩

theorem mergeLoadedNotes_self_head (n : SavedNote) (prev : List SavedNote) :
    mergeLoadedNotes [n] (n :: prev) = n :: prev := by
  have hupd : { n with txHash := n.txHash } = n := rfl
  simp [mergeLoadedNotes, List.find?_cons, hupd]

theorem countCid_cons_self (n : SavedNote) (prev : List SavedNote) :
    countCid n.cid (n :: prev) = 1 + countCid n.cid prev := by
  simp [countCid, List.filter_cons]
  omega

/-- C9: loading the same registry record twice yields exactly one stored
note with its cid: the first load merges it in once, the `loadedFromChain`
latch makes the second load a no-op, and even re-merging the same loaded
note against the updated list would not duplicate it. -/
theorem load_twice_single_copy (env : LoadEnv) (st0 : LoadState)
    (r : NoteRecord) (n : SavedNote) (o safe : String)
    (howner : env.ownerAddress = some o)
    (hsafe : env.safeAddress = some safe)
    (hget : env.hasGetUserNotes = true)
    (hprov : env.hasProvider = true)
    (hrecords : env.getNotes safe = .ok [r])
    (hlatch : st0.loadedFromChain = false)
    (hproc : processRecord env o st0.savedNotes r = .ok n)
    (hfresh : countCid n.cid st0.savedNotes = 0) :
    countCid n.cid
        (loadNotesFromBlockchain env
          (loadNotesFromBlockchain env st0).state).state.savedNotes = 1 ∧
    (loadNotesFromBlockchain env
        (loadNotesFromBlockchain env st0).state).state
      = (loadNotesFromBlockchain env st0).state ∧
    (loadNotesFromBlockchain env
        (loadNotesFromBlockchain env st0).state).loaded = [] ∧
    countCid n.cid
        (mergeLoadedNotes [n] (loadNotesFromBlockchain env st0).state.savedNotes)
      = 1 := by
  have hguard : ¬(env.ownerAddress.isNone ∨ env.safeAddress.isNone ∨
      env.hasGetUserNotes = false ∨ env.hasProvider = false) := by
    rw [howner, hsafe, hget, hprov]; simp
  have h1 : loadNotesFromBlockchain env st0 =
      { state := { savedNotes := n :: st0.savedNotes, loadedFromChain := true },
        loaded := [n], failures := [], errors := [] } := by
    rw [loadNotesFromBlockchain, if_neg hguard, if_neg (by rw [hlatch]; simp)]
    simp only [howner, hsafe, hrecords]
    rw [if_neg (by simp)]
    rw [loadLoop, loadLoop, hproc]
    rw [mergeLoadedNotes_not_held n st0.savedNotes hfresh]
  have h2 : loadNotesFromBlockchain env
      (⟨n :: st0.savedNotes, true⟩ : LoadState) =
      { state := ⟨n :: st0.savedNotes, true⟩,
        loaded := [], failures := [], errors := [] } := by
    rw [loadNotesFromBlockchain, if_neg hguard, if_pos rfl]
  rw [h1]
  simp only [h2]
  refine ⟨?_, trivial, trivial, ?_⟩
  · rw [countCid_cons_self, hfresh]
  · rw [mergeLoadedNotes_self_head, countCid_cons_self, hfresh]

theorem load_twice_single_copy_witness :
    countCid (demoNote "c1").cid
        (loadNotesFromBlockchain demoLoadEnv
          (loadNotesFromBlockchain demoLoadEnv ⟨[], false⟩).state).state.savedNotes = 1 ∧
    (loadNotesFromBlockchain demoLoadEnv
        (loadNotesFromBlockchain demoLoadEnv ⟨[], false⟩).state).state
      = (loadNotesFromBlockchain demoLoadEnv ⟨[], false⟩).state ∧
    (loadNotesFromBlockchain demoLoadEnv
        (loadNotesFromBlockchain demoLoadEnv ⟨[], false⟩).state).loaded = [] ∧
    countCid (demoNote "c1").cid
        (mergeLoadedNotes [demoNote "c1"]
          (loadNotesFromBlockchain demoLoadEnv ⟨[], false⟩).state.savedNotes)
      = 1 :=
  load_twice_single_copy demoLoadEnv ⟨[], false⟩ (demoRecord "c1")
    (demoNote "c1") "0xaa" "0xsafe" rfl rfl rfl rfl rfl rfl (by decide) (by decide)

/-! ### Save-pipeline lemmas and claims -/

def isAddNoteCall (t : TxData) : Bool :=
  match t.call with
  | .addNote _ _ _ => true
  | .addCollaborator _ _ _ => false

/-- Characterization of the fully successful main path of a save:
validation passes, upload returns `cid`, owner key derivation succeeds,
relay is available, the Safe is deployed and `addNote` is accepted. -/
theorem saveNoteToIPFS_success_eq
    (env : SaveEnv) (inp : SaveInput) (prev : List SavedNote)
    (o cid okey : String) (r : RelayResult)
    (hnote : ¬ trimStr inp.note = "")
    (howner : inp.ownerAddress = some o)
    (hcv : ¬ (trimStr inp.collaboratorAddress ≠ "" ∧
              isValidAddress inp.collaboratorAddress = false))
    (hgv : ¬ (trimStr inp.nftGateAddress ≠ "" ∧
              isValidAddress inp.nftGateAddress = false))
    (hupload : env.upload (saveCipherData env inp o) = .ok cid)
    (hokey : generateWalletKey env.wallet env.sha256 o cid = .ok okey)
    (hrelay : env.hasRelay = true)
    (hdeploy : inp.isDeployed = true)
    (haddnote : env.relay
      (addNoteTx env inp cid (wrapContentKey env inp okey inp.saltOwnerKey)) = .ok r) :
    saveNoteToIPFS env inp prev =
      saveFinish env inp prev o cid (saveCipherData env inp o)
        [addNoteTx env inp cid (wrapContentKey env inp okey inp.saltOwnerKey)]
        (extractTxHash r) := by
  simp only [saveNoteToIPFS, if_neg hnote, howner, if_neg hcv, if_neg hgv,
    hupload, hokey, hrelay, hdeploy, and_self, if_true, haddnote]

theorem collaboratorStep_calls (env : SaveEnv) (inp : SaveInput) (cid : String) :
    (collaboratorStep env inp cid).2 = [] ∨
    ∃ ck, (collaboratorStep env inp cid).2
      = [addCollaboratorTx env inp cid (wrapContentKey env inp ck inp.saltCollabKey)] := by
  rcases hk : generateWalletKey env.wallet env.sha256 inp.collaboratorAddress cid with e | k
  · left; simp [collaboratorStep, hk]
  · rcases hr : env.hasRelay with _ | _
    · left; simp [collaboratorStep, hk, hr]
    · rcases hrel : env.relay (addCollaboratorTx env inp cid
        (wrapContentKey env inp k inp.saltCollabKey)) with e2 | r2
      · right; exact ⟨k, by simp [collaboratorStep, hk, hr, hrel]⟩
      · right; exact ⟨k, by simp [collaboratorStep, hk, hr, hrel]⟩

theorem collaboratorStep_no_addNote (env : SaveEnv) (inp : SaveInput) (cid : String) :
    ∀ t ∈ (collaboratorStep env inp cid).2, isAddNoteCall t = false := by
  intro t ht
  rcases collaboratorStep_calls env inp cid with h | ⟨ck, h⟩
  · rw [h] at ht; simp at ht
  · rw [h] at ht
    simp at ht
    subst ht
    rfl

/-- C6 (amended): when a relay is available and the Safe is deployed,
every successful save submits exactly one `addNote` registry transaction
carrying the content identifier, the trimmed gate address or the
zero-address sentinel, and the wrapped owner key. -/
theorem saveNote_registers_addNote
    (env : SaveEnv) (inp : SaveInput) (prev : List SavedNote)
    (o cid okey : String) (r : RelayResult)
    (hnote : ¬ trimStr inp.note = "")
    (howner : inp.ownerAddress = some o)
    (hcv : ¬ (trimStr inp.collaboratorAddress ≠ "" ∧
              isValidAddress inp.collaboratorAddress = false))
    (hgv : ¬ (trimStr inp.nftGateAddress ≠ "" ∧
              isValidAddress inp.nftGateAddress = false))
    (hupload : env.upload (saveCipherData env inp o) = .ok cid)
    (hokey : generateWalletKey env.wallet env.sha256 o cid = .ok okey)
    (hrelay : env.hasRelay = true)
    (hdeploy : inp.isDeployed = true)
    (haddnote : env.relay
      (addNoteTx env inp cid (wrapContentKey env inp okey inp.saltOwnerKey)) = .ok r) :
    (saveNoteToIPFS env inp prev).relayCalls.filter isAddNoteCall
      = [addNoteTx env inp cid (wrapContentKey env inp okey inp.saltOwnerKey)] ∧
    (saveNoteToIPFS env inp prev).saved = true ∧
    (saveNoteToIPFS env inp prev).errors = [] := by
  rw [saveNoteToIPFS_success_eq env inp prev o cid okey r hnote howner hcv hgv
    hupload hokey hrelay hdeploy haddnote]
  refine ⟨?_, rfl, rfl⟩
  simp only [saveFinish]
  rw [List.filter_append]
  have h1 : [addNoteTx env inp cid (wrapContentKey env inp okey inp.saltOwnerKey)].filter
      isAddNoteCall
      = [addNoteTx env inp cid (wrapContentKey env inp okey inp.saltOwnerKey)] := by
    simp [isAddNoteCall, addNoteTx]
  by_cases hc : trimStr inp.collaboratorAddress = ""
  · rw [if_pos hc] at *
    simp only [if_pos hc]
    rw [h1]
    rfl
  · simp only [if_neg hc]
    rw [h1]
    have h2 : ((collaboratorStep env inp cid).2).filter isAddNoteCall = [] :=
      List.filter_eq_nil_iff.mpr (fun t ht => by
        rw [collaboratorStep_no_addNote env inp cid t ht]; simp)
    rw [h2]
    simp

/-! ### Concrete save environments for counterexamples and witnesses -/

/-- Relay that accepts `addNote` but rejects `addCollaborator`. -/
def saveDemoEnv : SaveEnv :=
  { bc := xorCipher, wallet := demoWallet, sha256 := id,
    upload := fun _ => .ok "QmDemoCid", hasRelay := true,
    relay := fun t =>
      match t.call with
      | .addNote _ _ _ => .ok ⟨some "task1", none, none⟩
      | .addCollaborator _ _ _ => .error "boom",
    registryAddress := "0xregistry" }

/-- Relay that accepts everything. -/
def saveDemoEnvOk : SaveEnv :=
  { saveDemoEnv with relay := fun _ => .ok ⟨some "task1", none, none⟩ }

def saveDemoInp : SaveInput :=
  { note := "Hello\nWorld", ownerAddress := some "0xAa",
    collaboratorAddress := "", nftGateAddress := "",
    isDeployed := true, contentKey := "ck",
    saltContent := [], saltOwnerKey := [], saltCollabKey := [],
    timestampIso := "2025-01-01T00:00:00Z", nowMs := 5 }

def saveDemoInpCollab : SaveInput :=
  { saveDemoInp with
    collaboratorAddress := "0xabcdef0123456789abcdef0123456789abcdef01" }

/-- C6: falsified as stated — a save that passes validation and upload
completes successfully (note appended, no error) WITHOUT submitting any
registry transaction when the Safe is not yet deployed: the `addNote`
submission is guarded by `relayTransaction && isDeployed`
(Editor.tsx line 346), so registration is not part of every successful
save. -/
theorem saveNote_succeeds_without_registration :
    (saveNoteToIPFS saveDemoEnv { saveDemoInp with isDeployed := false } []).saved = true ∧
    (saveNoteToIPFS saveDemoEnv { saveDemoInp with isDeployed := false } []).errors = [] ∧
    (saveNoteToIPFS saveDemoEnv { saveDemoInp with isDeployed := false } []).relayCalls = [] ∧
    (saveNoteToIPFS saveDemoEnv { saveDemoInp with isDeployed := false } []).savedNotes.length
      = 1 := by
  refine ⟨rfl, rfl, rfl, rfl⟩

theorem saveNote_registers_addNote_witness :
    (saveNoteToIPFS saveDemoEnvOk saveDemoInp []).relayCalls.filter isAddNoteCall
      = [addNoteTx saveDemoEnvOk saveDemoInp "QmDemoCid"
          (wrapContentKey saveDemoEnvOk saveDemoInp
            (mkKeyMessage "0xAa" "QmDemoCid") saveDemoInp.saltOwnerKey)] ∧
    (saveNoteToIPFS saveDemoEnvOk saveDemoInp []).saved = true ∧
    (saveNoteToIPFS saveDemoEnvOk saveDemoInp []).errors = [] :=
  saveNote_registers_addNote saveDemoEnvOk saveDemoInp []
    "0xAa" "QmDemoCid" (mkKeyMessage "0xAa" "QmDemoCid") ⟨some "task1", none, none⟩
    (by decide) rfl (by decide) (by decide) rfl rfl rfl rfl rfl

/-- C4: a successful save with a collaborator produces exactly two relay
submissions — one `addNote` for the owner, one `addCollaborator` for the
collaborator, i.e. exactly one wrapped-key record per recipient — and
both wrapped keys are encryptions of the identical content key
(unwrapping each with its own wallet key returns the same plaintext
key), under two different wallet-derived wrapping keys. -/
theorem saveNote_wraps_same_content_key
    (env : SaveEnv) (inp : SaveInput) (prev : List SavedNote)
    (o cid okey ckey : String) (r r2 : RelayResult)
    (hnote : ¬ trimStr inp.note = "")
    (howner : inp.ownerAddress = some o)
    (hcollab : trimStr inp.collaboratorAddress ≠ "")
    (hcvalid : isValidAddress inp.collaboratorAddress = true)
    (hgv : ¬ (trimStr inp.nftGateAddress ≠ "" ∧
              isValidAddress inp.nftGateAddress = false))
    (hupload : env.upload (saveCipherData env inp o) = .ok cid)
    (hokey : generateWalletKey env.wallet env.sha256 o cid = .ok okey)
    (hrelay : env.hasRelay = true)
    (hdeploy : inp.isDeployed = true)
    (haddnote : env.relay
      (addNoteTx env inp cid (wrapContentKey env inp okey inp.saltOwnerKey)) = .ok r)
    (hckey : generateWalletKey env.wallet env.sha256 inp.collaboratorAddress cid
      = .ok ckey)
    (hcrelay : env.relay
      (addCollaboratorTx env inp cid (wrapContentKey env inp ckey inp.saltCollabKey))
      = .ok r2)
    (hvalidkey : isValidUtf8 (utf8Encode inp.contentKey) = true)
    (hsiginj : ∀ m m', env.wallet.sign m = env.wallet.sign m' → m = m')
    (hshainj : ∀ a b, env.sha256 a = env.sha256 b → a = b)
    (hdistinct : toLowerStr o ≠ toLowerStr inp.collaboratorAddress) :
    (saveNoteToIPFS env inp prev).relayCalls
      = [addNoteTx env inp cid (wrapContentKey env inp okey inp.saltOwnerKey),
         addCollaboratorTx env inp cid (wrapContentKey env inp ckey inp.saltCollabKey)] ∧
    wrapContentKey env inp okey inp.saltOwnerKey
      = encryptContent env.bc (utf8Encode inp.contentKey) (utf8Encode okey)
          inp.saltOwnerKey ∧
    wrapContentKey env inp ckey inp.saltCollabKey
      = encryptContent env.bc (utf8Encode inp.contentKey) (utf8Encode ckey)
          inp.saltCollabKey ∧
    decryptContent env.bc (wrapContentKey env inp okey inp.saltOwnerKey)
        (utf8Encode okey) = some (utf8Encode inp.contentKey) ∧
    decryptContent env.bc (wrapContentKey env inp ckey inp.saltCollabKey)
        (utf8Encode ckey) = some (utf8Encode inp.contentKey) ∧
    okey ≠ ckey := by
  have hcv : ¬ (trimStr inp.collaboratorAddress ≠ "" ∧
      isValidAddress inp.collaboratorAddress = false) := by
    intro hh
    rw [hcvalid] at hh
    exact absurd hh.2 (by simp)
  have hstep : collaboratorStep env inp cid =
      (none, [addCollaboratorTx env inp cid
        (wrapContentKey env inp ckey inp.saltCollabKey)]) := by
    simp only [collaboratorStep, hckey, hrelay, if_true, hcrelay]
  refine ⟨?_, rfl, rfl,
    decryptContent_encryptContent env.bc _ _ _ hvalidkey,
    decryptContent_encryptContent env.bc _ _ _ hvalidkey, ?_⟩
  · rw [saveNoteToIPFS_success_eq env inp prev o cid okey r hnote howner hcv hgv
      hupload hokey hrelay hdeploy haddnote]
    simp only [saveFinish, if_neg hcollab, hstep]
    rfl
  · intro heq
    obtain ⟨hconn, s, hs, hks⟩ := generateWalletKey_ok hokey
    obtain ⟨_, s', hs', hks'⟩ := generateWalletKey_ok hckey
    rw [hks, hks'] at heq
    have hss : s = s' := hshainj _ _ heq
    rw [hss] at hs
    have hmm : mkKeyMessage o cid = mkKeyMessage inp.collaboratorAddress cid :=
      hsiginj _ _ (by rw [hs, hs'])
    exact hdistinct (mkKeyMessage_eq_iff_lower hmm)

theorem saveNote_wraps_same_content_key_witness :
    (saveNoteToIPFS saveDemoEnvOk saveDemoInpCollab []).relayCalls
      = [addNoteTx saveDemoEnvOk saveDemoInpCollab "QmDemoCid"
          (wrapContentKey saveDemoEnvOk saveDemoInpCollab
            (mkKeyMessage "0xAa" "QmDemoCid") saveDemoInpCollab.saltOwnerKey),
         addCollaboratorTx saveDemoEnvOk saveDemoInpCollab "QmDemoCid"
          (wrapContentKey saveDemoEnvOk saveDemoInpCollab
            (mkKeyMessage "0xabcdef0123456789abcdef0123456789abcdef01" "QmDemoCid")
            saveDemoInpCollab.saltCollabKey)] ∧
    wrapContentKey saveDemoEnvOk saveDemoInpCollab
        (mkKeyMessage "0xAa" "QmDemoCid") saveDemoInpCollab.saltOwnerKey
      = encryptContent saveDemoEnvOk.bc (utf8Encode saveDemoInpCollab.contentKey)
          (utf8Encode (mkKeyMessage "0xAa" "QmDemoCid"))
          saveDemoInpCollab.saltOwnerKey ∧
    wrapContentKey saveDemoEnvOk saveDemoInpCollab
        (mkKeyMessage "0xabcdef0123456789abcdef0123456789abcdef01" "QmDemoCid")
        saveDemoInpCollab.saltCollabKey
      = encryptContent saveDemoEnvOk.bc (utf8Encode saveDemoInpCollab.contentKey)
          (utf8Encode
            (mkKeyMessage "0xabcdef0123456789abcdef0123456789abcdef01" "QmDemoCid"))
          saveDemoInpCollab.saltCollabKey ∧
    decryptContent saveDemoEnvOk.bc
        (wrapContentKey saveDemoEnvOk saveDemoInpCollab
          (mkKeyMessage "0xAa" "QmDemoCid") saveDemoInpCollab.saltOwnerKey)
        (utf8Encode (mkKeyMessage "0xAa" "QmDemoCid"))
      = some (utf8Encode saveDemoInpCollab.contentKey) ∧
    decryptContent saveDemoEnvOk.bc
        (wrapContentKey saveDemoEnvOk saveDemoInpCollab
          (mkKeyMessage "0xabcdef0123456789abcdef0123456789abcdef01" "QmDemoCid")
          saveDemoInpCollab.saltCollabKey)
        (utf8Encode
          (mkKeyMessage "0xabcdef0123456789abcdef0123456789abcdef01" "QmDemoCid"))
      = some (utf8Encode saveDemoInpCollab.contentKey) ∧
    mkKeyMessage "0xAa" "QmDemoCid"
      ≠ mkKeyMessage "0xabcdef0123456789abcdef0123456789abcdef01" "QmDemoCid" :=
  saveNote_wraps_same_content_key saveDemoEnvOk saveDemoInpCollab []
    "0xAa" "QmDemoCid" (mkKeyMessage "0xAa" "QmDemoCid")
    (mkKeyMessage "0xabcdef0123456789abcdef0123456789abcdef01" "QmDemoCid")
    ⟨some "task1", none, none⟩ ⟨some "task1", none, none⟩
    (by decide) rfl (by decide) (by decide) (by decide)
    rfl rfl rfl rfl rfl rfl rfl (by decide)
    (fun _ _ h => by injection h) (fun _ _ h => h) (by decide)

/-- C7: when the optional collaborator step fails (key derivation or the
`addCollaborator` submission), the failure is isolated: no save error is
raised, the upload and the `addNote` registration stand, the note is
appended to the local list and reported saved, and the separate
"collaborator addition failed" warning is emitted. -/
theorem saveNote_collaborator_failure_isolated
    (env : SaveEnv) (inp : SaveInput) (prev : List SavedNote)
    (o cid okey cerr : String) (r : RelayResult)
    (hnote : ¬ trimStr inp.note = "")
    (howner : inp.ownerAddress = some o)
    (hcollab : trimStr inp.collaboratorAddress ≠ "")
    (hcvalid : isValidAddress inp.collaboratorAddress = true)
    (hgv : ¬ (trimStr inp.nftGateAddress ≠ "" ∧
              isValidAddress inp.nftGateAddress = false))
    (hupload : env.upload (saveCipherData env inp o) = .ok cid)
    (hokey : generateWalletKey env.wallet env.sha256 o cid = .ok okey)
    (hrelay : env.hasRelay = true)
    (hdeploy : inp.isDeployed = true)
    (haddnote : env.relay
      (addNoteTx env inp cid (wrapContentKey env inp okey inp.saltOwnerKey)) = .ok r)
    (hfail : (collaboratorStep env inp cid).1 = some cerr) :
    (saveNoteToIPFS env inp prev).errors = [] ∧
    (saveNoteToIPFS env inp prev).saved = true ∧
    (saveNoteToIPFS env inp prev).savedNotes
      = newSavedNote inp cid (extractTxHash r) o :: prev ∧
    (saveNoteToIPFS env inp prev).uploads = [saveCipherData env inp o] ∧
    addNoteTx env inp cid (wrapContentKey env inp okey inp.saltOwnerKey)
      ∈ (saveNoteToIPFS env inp prev).relayCalls ∧
    (saveNoteToIPFS env inp prev).warnings
      = ["Note was saved but collaborator addition failed"] ∧
    (saveNoteToIPFS env inp prev).collabError = some cerr := by
  have hcv : ¬ (trimStr inp.collaboratorAddress ≠ "" ∧
      isValidAddress inp.collaboratorAddress = false) := by
    intro hh
    rw [hcvalid] at hh
    exact absurd hh.2 (by simp)
  rw [saveNoteToIPFS_success_eq env inp prev o cid okey r hnote howner hcv hgv
    hupload hokey hrelay hdeploy haddnote]
  simp only [saveFinish, if_neg hcollab, hfail]
  simp

theorem saveNote_collaborator_failure_isolated_witness :
    (saveNoteToIPFS saveDemoEnv saveDemoInpCollab []).errors = [] ∧
    (saveNoteToIPFS saveDemoEnv saveDemoInpCollab []).saved = true ∧
    (saveNoteToIPFS saveDemoEnv saveDemoInpCollab []).savedNotes
      = newSavedNote saveDemoInpCollab "QmDemoCid"
          (extractTxHash ⟨some "task1", none, none⟩) "0xAa" :: [] ∧
    (saveNoteToIPFS saveDemoEnv saveDemoInpCollab []).uploads
      = [saveCipherData saveDemoEnv saveDemoInpCollab "0xAa"] ∧
    addNoteTx saveDemoEnv saveDemoInpCollab "QmDemoCid"
        (wrapContentKey saveDemoEnv saveDemoInpCollab
          (mkKeyMessage "0xAa" "QmDemoCid") saveDemoInpCollab.saltOwnerKey)
      ∈ (saveNoteToIPFS saveDemoEnv saveDemoInpCollab []).relayCalls ∧
    (saveNoteToIPFS saveDemoEnv saveDemoInpCollab []).warnings
      = ["Note was saved but collaborator addition failed"] ∧
    (saveNoteToIPFS saveDemoEnv saveDemoInpCollab []).collabError
      = some "Failed to add collaborator: boom" :=
  saveNote_collaborator_failure_isolated saveDemoEnv saveDemoInpCollab []
    "0xAa" "QmDemoCid" (mkKeyMessage "0xAa" "QmDemoCid")
    "Failed to add collaborator: boom" ⟨some "task1", none, none⟩
    (by decide) rfl (by decide) (by decide) (by decide)
    rfl rfl rfl rfl rfl (by decide)

end BeyondPad
